import Mathlib

/-!
# Verification of the Cretzo CV-screening engine

Shallow embedding of the scoring engine of this repository:
`RealCVProcessor` in `src/app.py` (namespace `App` below) and
`CVProcessor` in `src/cv_processor.py` (namespace `CVP` below).

Conventions of the embedding:
* Python floats are modelled as exact rationals (`ℚ`); `round(x, 1)` is
  modelled by `round1`, round-half-to-even at one decimal, as Python rounds.
* Regex-driven extraction (`re.findall`) is not re-implemented; functions
  whose arithmetic acts on regex results take those results as arguments
  (e.g. the list of integers matched by the explicit experience patterns).
  Each such definition documents the correspondence.
* Python's substring test `needle in haystack` is `pyIn`; `str.strip()` is
  `pyStrip`; `str.lower()` is `pyLower` (character-level, so that concrete
  instances evaluate).
* `list.sort(key=..., reverse=True)` (Timsort, stable) is modelled by the
  stable descending insertion sort `sort_desc`, which agrees with every
  stable descending sort.
* The optional sentence-transformer backend is absent (`ai_enabled = False`,
  the deterministic path the code takes without the optional dependency).
  In app.py the extra similarity branch is gated on `ai_enabled` and never
  runs; in cv_processor.py `calculate_semantic_similarity` then falls back
  to the word-overlap similarity, embedded as `CVP.basic_text_similarity`.
-/

/-- Python's `needle in haystack` on strings: contiguous substring test. -/
def pyIn (needle haystack : String) : Bool :=
  haystack.toList.tails.any (fun t => needle.toList.isPrefixOf t)

/-- Python's `str.lower()`: character-by-character case folding. -/
def pyLower (s : String) : String :=
  String.mk (s.toList.map Char.toLower)

/-- Python's `str.strip()`: drop whitespace from both ends. -/
def pyStrip (s : String) : String :=
  String.mk (((s.toList.dropWhile Char.isWhitespace).reverse.dropWhile
    Char.isWhitespace).reverse)

/-- Round half to even (Python's `round` tie rule) to an integer. -/
def rhe (x : ℚ) : ℤ :=
  if x - ⌊x⌋ < 1/2 then ⌊x⌋
  else if 1/2 < x - ⌊x⌋ then ⌊x⌋ + 1
  else if ⌊x⌋ % 2 = 0 then ⌊x⌋ else ⌊x⌋ + 1

/-- Python's `round(x, 1)`: round half to even at one decimal. -/
def round1 (x : ℚ) : ℚ := (rhe (10 * x) : ℚ) / 10

/-! ## A stable descending sort

`list.sort(key=lambda x: x['fit_score'], reverse=True)` in the source is
Python's Timsort, which is stable; `reverse=True` keeps equal-key elements
in their original order. Every stable descending sort computes the same
list, so the source's sort is modelled by the insertion sort below. -/

/-- Insert `x` (an element originally *earlier* than everything in `l`) into
the descending-sorted list `l`, keeping it before equal keys. -/
def insert_desc {α : Type} (key : α → ℚ) (x : α) : List α → List α
  | [] => [x]
  | y :: ys => if key x < key y then y :: insert_desc key x ys else x :: y :: ys

/-- Stable sort by `key`, largest first. -/
def sort_desc {α : Type} (key : α → ℚ) (l : List α) : List α :=
  l.foldr (insert_desc key) []

namespace App

/-! ## `RealCVProcessor` (src/app.py) -/

/-- The synonym groups of `RealCVProcessor.__init__` (`self.skill_synonyms`);
`_are_skills_related` only iterates over the groups, so the dict keys are
irrelevant and the values are kept as a list of groups. -/
def skill_synonyms : List (List String) :=
  [ ["python", "py", "django", "flask", "fastapi", "pandas", "numpy"],
    ["javascript", "js", "node.js", "nodejs", "react", "vue", "angular", "typescript"],
    ["java", "spring", "hibernate", "j2ee", "maven", "gradle"],
    ["sql", "mysql", "postgresql", "oracle", "database", "rdbms", "nosql", "mongodb"],
    ["aws", "amazon web services", "ec2", "s3", "lambda", "cloudformation", "eks"],
    ["docker", "containerization", "kubernetes", "k8s", "container"],
    ["ml", "machine learning", "ai", "tensorflow", "pytorch", "scikit-learn", "data science"],
    ["project management", "pmp", "agile", "scrum", "kanban", "jira"],
    ["react", "reactjs", "react.js", "redux", "jsx"],
    ["node.js", "nodejs", "express", "express.js"],
    ["cloud", "aws", "azure", "gcp", "google cloud", "cloud computing"],
    ["devops", "ci/cd", "jenkins", "gitlab", "deployment", "automation"] ]

/-- Embeds `RealCVProcessor._are_skills_related`: case-insensitive mutual substring
test, then membership of both skills in one synonym group. -/
def are_skills_related (skill1 skill2 : String) : Bool :=
  let s1 := pyStrip (pyLower skill1)
  let s2 := pyStrip (pyLower skill2)
  if pyIn s1 s2 || pyIn s2 s1 then true
  else skill_synonyms.any (fun group => group.contains s1 && group.contains s2)

/-- The inner loop of `match_skills_semantic` for one `jd_skill`: the first
related CV skill wins with confidence 1.0 and breaks the loop; without the
optional AI backend no other branch can set `best_match`. -/
def best_skill_match (cv_skills : List String) (jd_skill : String) : Option String :=
  cv_skills.find? (fun c => are_skills_related jd_skill c)

/-- What one `jd_skill` contributes to `matched_skills`: the f-string entry
joining `jd_skill` and `best_match` with an arrow, unless no related CV skill
is found or the found one is the empty string (falsy in
`if best_match and best_score > 0.5`). -/
def matched_entry (cv_skills : List String) (jd_skill : String) : Option String :=
  match best_skill_match cv_skills jd_skill with
  | some c => if c = "" then none else some (jd_skill ++ " → " ++ c)
  | none => none

/-- The `for jd_skill in jd_skills` loop of `match_skills_semantic`, building
`matched_skills` and `missing_skills` in order. -/
def match_loop (cv_skills : List String) : List String → List String × List String
  | [] => ([], [])
  | j :: rest =>
    let p := match_loop cv_skills rest
    match matched_entry cv_skills j with
    | some e => (e :: p.1, p.2)
    | none => (p.1, j :: p.2)

/-- Embeds `RealCVProcessor.match_skills_semantic` (AI backend absent): returns
`(matched_skills, missing_skills, match_percentage)`. -/
def match_skills_semantic (cv_skills jd_skills : List String) :
    List String × List String × ℚ :=
  if cv_skills = [] ∨ jd_skills = [] then ([], jd_skills, 0)
  else
    let p := match_loop cv_skills jd_skills
    (p.1, p.2, ((p.1.length : ℚ) / (jd_skills.length : ℚ)) * 100)

/-- The fields of the `analyze_cv` result dict that the fit-score calculator
and the screening loop read. -/
structure CvAnalysis where
  candidate_name : String
  skills : List String
  experience_years : ℕ
  education : List String
  seniority_level : String
  career_progression : String
  notable_achievements : List String
  red_flags : List String

/-- The fields of the `analyze_job_description` result dict that the
fit-score calculator and the screening loop read. -/
structure JdAnalysis where
  required_skills : List String
  preferred_skills : List String
  min_experience_years : ℕ
  seniority_level : String

/-- Embeds `RealCVProcessor._get_fit_level`. -/
def get_fit_level (score : ℚ) : String :=
  if 85 ≤ score then "Excellent Fit"
  else if 75 ≤ score then "Good Fit"
  else if 65 ≤ score then "Moderate Fit"
  else if 50 ≤ score then "Below Average"
  else "Poor Fit"

/-- The `scores['skills_match']` block of `calculate_comprehensive_fit_score`. -/
def skills_match_score (matched_len total_jd_skills : ℕ) : ℚ :=
  if 0 < total_jd_skills then
    min (((matched_len : ℚ) / (total_jd_skills : ℚ)) * 120) 100
  else 50

/-- The `scores['experience_level']` block of
`calculate_comprehensive_fit_score`. -/
def experience_level_score (cv_exp jd_min_exp : ℕ) : ℚ :=
  if jd_min_exp ≤ cv_exp then
    min (50 + (min ((cv_exp : ℚ) / ((max jd_min_exp 1 : ℕ) : ℚ)) 2) * 30) 100
  else
    max 20 (((cv_exp : ℚ) / ((max jd_min_exp 1 : ℕ) : ℚ)) * 60)

/-- The `scores['seniority_match']` block. -/
def seniority_match_score (cv_seniority jd_seniority : String) : ℚ :=
  if cv_seniority = jd_seniority then 100
  else if (cv_seniority = "senior" ∧ jd_seniority = "mid") ∨
      (cv_seniority = "mid" ∧ jd_seniority = "junior") then 85
  else 60

/-- The `scores['education_relevance']` block. -/
def education_relevance_score (education : List String) : ℚ :=
  if education ≠ [] then 80 else 40

/-- The `scores['career_progression']` lookup (`progression_scores.get`,
default 50). -/
def career_progression_score (progression : String) : ℚ :=
  if progression = "good_progression" then 100
  else if progression = "stable_level" then 70
  else if progression = "insufficient_data" then 50
  else 50

/-- The `scores['achievements']` block. -/
def achievements_score (achievement_count : ℕ) : ℚ :=
  min ((achievement_count : ℚ) * 25) 100

/-- The must-have penalty block: 15 points per must-have skill whose
lowercased text is a substring of no lowercased CV skill; 0 when the caller
passes no list (falsy `if must_have_skills:`). -/
def must_have_penalty_amount (cv_skills must_have_skills : List String) : ℚ :=
  if must_have_skills = [] then 0
  else ((must_have_skills.filter
    (fun m => ! (cv_skills.map pyLower).any
      (fun s => pyIn (pyLower m) s))).length : ℚ) * 15

/-- The red-flag penalty block: `min(len(red_flags) * 8, 25)`. -/
def red_flags_penalty_amount (red_flag_count : ℕ) : ℚ :=
  min ((red_flag_count : ℚ) * 8) 25

/-- The dict `calculate_comprehensive_fit_score` returns (minus the emoji
and recommendation strings, which no claim reads). -/
structure FitResult where
  overall_score : ℚ
  skills_match : ℚ
  experience_level : ℚ
  seniority_match : ℚ
  education_relevance : ℚ
  career_progression : ℚ
  achievements : ℚ
  must_have_penalty : ℚ
  red_flags_penalty : ℚ
  fit_level : String

/-- Embeds `RealCVProcessor.calculate_comprehensive_fit_score`: weights 0.30 / 0.25 /
0.15 / 0.10 / 0.10 / 0.10, both penalties subtracted, floor at 0, final
score rounded to one decimal. -/
def calculate_comprehensive_fit_score (cv : CvAnalysis) (jd : JdAnalysis)
    (matched_skills missing_skills must_have_skills : List String) : FitResult :=
  let total_jd_skills := jd.required_skills.length + jd.preferred_skills.length
  let s_skills := skills_match_score matched_skills.length total_jd_skills
  let s_exp := experience_level_score cv.experience_years jd.min_experience_years
  let s_seniority := seniority_match_score cv.seniority_level jd.seniority_level
  let s_edu := education_relevance_score cv.education
  let s_prog := career_progression_score cv.career_progression
  let s_ach := achievements_score cv.notable_achievements.length
  let weighted := (0.30 : ℚ) * s_skills + (0.25 : ℚ) * s_exp + (0.15 : ℚ) * s_seniority
    + (0.10 : ℚ) * s_edu + (0.10 : ℚ) * s_prog + (0.10 : ℚ) * s_ach
  let must_have_penalty := must_have_penalty_amount cv.skills must_have_skills
  let red_flags_penalty := red_flags_penalty_amount cv.red_flags.length
  let final_score := max 0 (weighted - must_have_penalty - red_flags_penalty)
  { overall_score := round1 final_score
    skills_match := s_skills
    experience_level := s_exp
    seniority_match := s_seniority
    education_relevance := s_edu
    career_progression := s_prog
    achievements := s_ach
    must_have_penalty := must_have_penalty
    red_flags_penalty := red_flags_penalty
    fit_level := get_fit_level final_score }

end App

namespace App

/-- Embeds `RealCVProcessor.extract_experience_years`, applied to the regex results.
`explicit_years` are the integers captured by the five explicit experience
patterns (a number of years next to the word experience, and the over and
more-than phrasings); `date_ranges` are the captures of the employment range
pattern, the start year paired with the end year, `none` standing for the
words present and current, which the code replaces by `datetime.now().year`
(the `current_year` argument here). The arithmetic after the two
`re.findall` calls is translated verbatim: the maximum of the explicit
integers when any exist, otherwise the sum of `end - start` over the ranges
with `end_year >= start_year` capped at 30, otherwise 0. -/
def extract_experience_years (explicit_years : List ℕ)
    (date_ranges : List (ℕ × Option ℕ)) (current_year : ℕ) : ℕ :=
  if explicit_years ≠ [] then explicit_years.foldl max 0
  else if date_ranges ≠ [] then
    min (date_ranges.foldl (fun total r =>
      let end_year := match r.2 with
        | some y => y
        | none => current_year
      if r.1 ≤ end_year then total + (end_year - r.1) else total) 0) 30
  else 0

/-- Embeds `RealCVProcessor._determine_seniority`, applied to the keyword counts:
`senior_indicators` and `junior_indicators` count how many of the senior and
junior indicator terms occur in the lowercased CV text, and `exp_years` is
`extract_experience_years` of the text. The decision chain is translated
verbatim, with its threshold of 7 years for the senior band. -/
def determine_seniority (senior_indicators junior_indicators exp_years : ℕ) : String :=
  if 2 ≤ senior_indicators ∨ 7 ≤ exp_years then "senior"
  else if 2 ≤ junior_indicators ∨ exp_years ≤ 2 then "junior"
  else "mid"

/-- Embeds `RealCVProcessor._generate_recommendation`. -/
def generate_recommendation (score : ℚ) (candidate_name : String) : String :=
  if 85 ≤ score then
    "🌟 Excellent match! " ++ candidate_name ++ " demonstrates strong alignment with role requirements. Highly recommended for immediate interview - likely to succeed in this position."
  else if 75 ≤ score then
    "✅ Strong candidate. " ++ candidate_name ++ " shows good fit with minor gaps that could be addressed through onboarding. Recommend for interview round."
  else if 65 ≤ score then
    "👍 Moderate fit with potential. " ++ candidate_name ++ " has relevant experience but may need additional training in some areas. Consider if other candidates are limited."
  else if 50 ≤ score then
    "⚠️ Below average match. " ++ candidate_name ++ " has some relevant skills but significant gaps exist. Only consider if willing to invest in substantial training."
  else
    "❌ Poor fit for this role. " ++ candidate_name ++ " lacks most required qualifications. Not recommended unless role requirements are flexible."

/-- One uploaded CV as the screening loop sees it: the filename, the text
`extract_text_from_file` produced (text extraction is external to the
engine), and the candidate name derived from the filename. -/
structure CvFile where
  filename : String
  text : String
  candidate_name : String

/-- One entry of `results['candidates']` (the fields the ranking and
skipping claims read). -/
structure CandidateResult where
  filename : String
  candidate_name : String
  matched_skills : List String
  missing_skills : List String
  fit_score : ℚ
  fit_level : String

/-- The body of the per-CV `for` loop of `process_screening`. The regex-heavy
`analyze_cv` is a parameter, `Except.error` standing for any exception the
per-candidate `try` block catches; the skip guard
`if not cv_text or len(cv_text.strip()) < 50: continue` and the assembled
result dict are translated verbatim. -/
def process_candidate (jd : JdAnalysis) (must_have_skills : List String)
    (analyze_cv : String → String → Except String CvAnalysis)
    (f : CvFile) : Option CandidateResult :=
  if f.text = "" ∨ (pyStrip f.text).length < 50 then none
  else
    match analyze_cv f.text f.candidate_name with
    | Except.error _ => none
    | Except.ok cva =>
      let all_jd_skills := jd.required_skills ++ jd.preferred_skills
      let m := match_skills_semantic cva.skills all_jd_skills
      let fit := calculate_comprehensive_fit_score cva jd m.1 m.2.1 must_have_skills
      some { filename := f.filename
             candidate_name := f.candidate_name
             matched_skills := m.1
             missing_skills := m.2.1
             fit_score := fit.overall_score
             fit_level := fit.fit_level }

/-- The list `results['candidates']` before the final sort: the loop appends one
result per CV that is neither skipped nor failed, in upload order. -/
def screen_candidates (jd : JdAnalysis) (must_have_skills : List String)
    (analyze_cv : String → String → Except String CvAnalysis)
    (cv_files : List CvFile) : List CandidateResult :=
  cv_files.filterMap (process_candidate jd must_have_skills analyze_cv)

/-- Embeds `RealCVProcessor.process_screening` restricted to the candidate list it
returns: the per-CV loop followed by
`results['candidates'].sort(key=lambda x: x['fit_score'], reverse=True)`. -/
def process_screening (jd : JdAnalysis) (must_have_skills : List String)
    (analyze_cv : String → String → Except String CvAnalysis)
    (cv_files : List CvFile) : List CandidateResult :=
  sort_desc (fun c => c.fit_score)
    (screen_candidates jd must_have_skills analyze_cv cv_files)

end App

namespace CVP

/-! ## `CVProcessor` (src/cv_processor.py) -/

/-- The fields of the `CVProcessor.analyze_cv` result dict that
`calculate_fit_score` reads. -/
structure CvAnalysis where
  skills : List String
  experience_years : ℕ
  education : List String
  certifications : List String
  career_progression : String
  red_flags : List String

/-- The fields of the `CVProcessor.analyze_job_description` result dict that
`calculate_fit_score` and the screening loop read. -/
structure JdAnalysis where
  required_skills : List String
  optional_skills : List String
  min_experience_years : ℕ
  experience_level : String

/-- Embeds `CVProcessor._get_recommendation`. -/
def get_recommendation (score : ℚ) : String :=
  if 85 ≤ score then
    "Excellent fit! Strong candidate with relevant experience and skills. Recommend for interview."
  else if 75 ≤ score then
    "Good fit with minor gaps. Solid candidate worth considering for next round."
  else if 65 ≤ score then
    "Moderate fit. Has potential but may need training in some areas. Consider if other candidates are limited."
  else if 50 ≤ score then
    "Below average fit. Significant skill or experience gaps. Only consider if willing to invest in training."
  else
    "Poor fit for this role. Major gaps in requirements. Not recommended for this position."

/-- The dict `CVProcessor.calculate_fit_score` returns (scores and
penalties; the strings it copies through are omitted). -/
structure FitResult where
  overall_score : ℚ
  skills_match : ℚ
  experience_level : ℚ
  qualifications : ℚ
  career_progression : ℚ
  certifications : ℚ
  red_flags_penalty : ℚ
  must_have_penalty : ℚ

/-- Embeds `CVProcessor.calculate_fit_score`. The `weights` dict gives
`red_flags_penalty` the weight `-0.05`, and the summation loop multiplies
that component by `-1` once more, so the red-flag term is translated
verbatim as `(-0.05) * red_flag_penalty * (-1)`. -/
def calculate_fit_score (cv : CvAnalysis) (jd : JdAnalysis)
    (skill_match_percentage : ℚ) (must_have_skills : List String) : FitResult :=
  let skills_match := min skill_match_percentage 100
  let experience_level : ℚ :=
    if jd.min_experience_years ≤ cv.experience_years then
      if jd.experience_level = "senior" ∧ 7 ≤ cv.experience_years then 100
      else if jd.experience_level = "mid" ∧ 3 ≤ cv.experience_years ∧
          cv.experience_years ≤ 8 then 100
      else if jd.experience_level = "junior" ∧ cv.experience_years ≤ 3 then 100
      else 80
    else
      min (((cv.experience_years : ℚ) /
        ((max jd.min_experience_years 1 : ℕ) : ℚ)) * 70) 70
  let qualifications : ℚ := if cv.education ≠ [] then 85 else 40
  let career_progression : ℚ :=
    if cv.career_progression = "good_progression" then 100
    else if cv.career_progression = "senior_level" then 85
    else if cv.career_progression = "stable_level" then 70
    else if cv.career_progression = "junior_level" then 80
    else if cv.career_progression = "insufficient_data" then 50
    else 50
  let certifications : ℚ :=
    if 3 ≤ cv.certifications.length then 100
    else if 1 ≤ cv.certifications.length then 70
    else 20
  let red_flag_penalty : ℚ := min ((cv.red_flags.length : ℚ) * 10) 50
  let must_have_penalty : ℚ :=
    if must_have_skills = [] then 0
    else
      let cv_skills_lower := cv.skills.map pyLower
      let missing_must_have := must_have_skills.filter
        (fun m => ! cv_skills_lower.any (fun s => pyIn (pyLower m) s))
      if missing_must_have = [] then 0 else (missing_must_have.length : ℚ) * 15
  let final_score := (0.35 : ℚ) * skills_match + (0.25 : ℚ) * experience_level
    + (0.15 : ℚ) * qualifications + (0.10 : ℚ) * career_progression
    + (0.10 : ℚ) * certifications + (-0.05 : ℚ) * red_flag_penalty * (-1)
  let final_score := max 0 (final_score - must_have_penalty)
  { overall_score := round1 final_score
    skills_match := skills_match
    experience_level := experience_level
    qualifications := qualifications
    career_progression := career_progression
    certifications := certifications
    red_flags_penalty := red_flag_penalty
    must_have_penalty := must_have_penalty }

end CVP

namespace App

/-- A concrete candidate analysis (skills python, ten years senior
experience, a degree, clear progression, four achievements, no red flags)
used to instantiate the theorems with hypotheses at a concrete input. -/
def cv_example : CvAnalysis :=
  { candidate_name := "Alice"
    skills := ["python"]
    experience_years := 10
    education := ["bachelor of science in computing"]
    seniority_level := "senior"
    career_progression := "good_progression"
    notable_achievements := ["delivered a", "improved b", "reduced c", "built d"]
    red_flags := [] }

/-- A concrete job-description analysis (python required, five years,
senior) for the same purpose. -/
def jd_example : JdAnalysis :=
  { required_skills := ["python"]
    preferred_skills := []
    min_experience_years := 5
    seniority_level := "senior" }

end App

namespace CVP

/-- A concrete candidate analysis with five red flags, in the
src/cv_processor.py shape. -/
def cv_flags_example : CvAnalysis :=
  { skills := ["python"]
    experience_years := 10
    education := ["bsc computer science"]
    certifications := []
    career_progression := "good_progression"
    red_flags := ["f1", "f2", "f3", "f4", "f5"] }

/-- The same candidate with no red flags. -/
def cv_noflags_example : CvAnalysis :=
  { cv_flags_example with red_flags := [] }

/-- A concrete job-description analysis in the src/cv_processor.py shape. -/
def jd_example : JdAnalysis :=
  { required_skills := ["python"]
    optional_skills := []
    min_experience_years := 5
    experience_level := "senior" }

end CVP

/-- Python's `str.split()` with no argument: the maximal non-whitespace
runs, in order (the accumulator holds the current word reversed). -/
def splitWsAux : List Char → List Char → List (List Char)
  | [], acc => if acc.isEmpty then [] else [acc.reverse]
  | c :: cs, acc =>
    if c.isWhitespace then
      if acc.isEmpty then splitWsAux cs [] else acc.reverse :: splitWsAux cs []
    else splitWsAux cs (c :: acc)

/-- Python's `text.split()` as a list of words. -/
def pyWords (s : String) : List String :=
  (splitWsAux s.toList []).map String.mk

namespace CVP

/-- The synonym groups of `CVProcessor.__init__` (`self.skill_synonyms`);
`_is_skill_synonym` only iterates over the groups. -/
def skill_synonyms : List (List String) :=
  [ ["python", "py", "django", "flask", "fastapi"],
    ["javascript", "js", "node.js", "nodejs", "react", "vue", "angular"],
    ["java", "spring", "hibernate", "j2ee"],
    ["sql", "mysql", "postgresql", "oracle", "database", "rdbms"],
    ["aws", "amazon web services", "ec2", "s3", "lambda", "cloudformation"],
    ["docker", "containerization", "kubernetes", "k8s"],
    ["ml", "machine learning", "ai", "tensorflow", "pytorch", "scikit-learn"],
    ["project management", "pmp", "agile", "scrum", "kanban"] ]

/-- Embeds `CVProcessor._is_skill_synonym`: both lowercased skills belong to
one synonym group. -/
def is_skill_synonym (skill1 skill2 : String) : Bool :=
  skill_synonyms.any (fun group =>
    group.contains (pyLower skill1) && group.contains (pyLower skill2))

/-- Embeds `CVProcessor._basic_text_similarity`, the fallback
`calculate_semantic_similarity` uses when the AI backend is absent: the
word-overlap (Jaccard) ratio of the lowercased word sets. -/
def basic_text_similarity (text1 text2 : String) : ℚ :=
  let words1 := (pyWords (pyLower text1)).dedup
  let words2 := (pyWords (pyLower text2)).dedup
  if words1 = [] ∨ words2 = [] then 0
  else
    let inter := words1.filter (fun w => words2.contains w)
    let union := (words1 ++ words2).dedup
    if union = [] then 0 else (inter.length : ℚ) / (union.length : ℚ)

/-- The direct test in one iteration of the inner loop of
`CVProcessor.match_skills_semantic`: mutual lowercase substring containment
or a shared synonym group. -/
def skills_direct_or_synonym (jd_skill cv_skill : String) : Bool :=
  pyIn (pyLower jd_skill) (pyLower cv_skill) ||
  pyIn (pyLower cv_skill) (pyLower jd_skill) ||
  is_skill_synonym jd_skill cv_skill

/-- The inner `for cv_skill in cv_skills` loop of
`CVProcessor.match_skills_semantic`, carrying `best_match` and
`best_score`: a direct or synonym match wins with score 1.0 and breaks;
otherwise the word-overlap similarity replaces the current best when it
exceeds both the best score and 0.7. -/
def best_match_fold (jd_skill : String) :
    List String → Option String → ℚ → Option String × ℚ
  | [], best, score => (best, score)
  | cv :: rest, best, score =>
    if skills_direct_or_synonym jd_skill cv then (some cv, 1)
    else
      let sim := basic_text_similarity jd_skill cv
      if score < sim ∧ (0.7 : ℚ) < sim then
        best_match_fold jd_skill rest (some cv) sim
      else best_match_fold jd_skill rest best score

/-- What one `jd_skill` contributes to `matched_skills` in
`CVProcessor.match_skills_semantic`: the arrow-joined f-string entry when
`best_match` is truthy (not `None`, not the empty string) and
`best_score > 0.6`. -/
def matched_entry (cv_skills : List String) (jd_skill : String) : Option String :=
  match best_match_fold jd_skill cv_skills none 0 with
  | (some c, score) =>
    if c ≠ "" ∧ (0.6 : ℚ) < score then some (jd_skill ++ " → " ++ c) else none
  | (none, _) => none

/-- The `for jd_skill in jd_skills` loop of
`CVProcessor.match_skills_semantic`, building `matched_skills` and
`missing_skills` in order. -/
def match_loop (cv_skills : List String) : List String → List String × List String
  | [] => ([], [])
  | j :: rest =>
    let p := match_loop cv_skills rest
    match matched_entry cv_skills j with
    | some e => (e :: p.1, p.2)
    | none => (p.1, j :: p.2)

/-- Embeds `CVProcessor.match_skills_semantic` (AI backend absent): returns
`(matched_skills, missing_skills, match_percentage)`. -/
def match_skills_semantic (cv_skills jd_skills : List String) :
    List String × List String × ℚ :=
  if cv_skills = [] ∨ jd_skills = [] then ([], jd_skills, 0)
  else
    let p := match_loop cv_skills jd_skills
    (p.1, p.2, ((p.1.length : ℚ) / (jd_skills.length : ℚ)) * 100)

/-- One entry of the `results['candidates']` list built by
`CVProcessor.process_screening` (the fields the skipping and ranking claims
read). -/
structure CandidateResult where
  filename : String
  candidate_name : String
  matched_skills : List String
  missing_skills : List String
  fit_score : ℚ

/-- The body of the per-CV `for` loop of `CVProcessor.process_screening`
(src/cv_processor.py). Text extraction is external, and the regex-heavy
`analyze_cv` is a parameter, `Except.error` standing for any exception the
per-candidate `try` block catches (including `extract_text_from_file`
raising on an unsupported format). The only skip guard is
`if not cv_text: continue` — unlike app.py, this loop has no
minimum-length check: any non-empty text is analyzed and recorded. -/
def process_candidate (jd : JdAnalysis) (must_have_skills : List String)
    (analyze_cv : String → String → Except String CvAnalysis)
    (f : App.CvFile) : Option CandidateResult :=
  if f.text = "" then none
  else
    match analyze_cv f.text f.candidate_name with
    | Except.error _ => none
    | Except.ok cva =>
      let all_jd_skills := jd.required_skills ++ jd.optional_skills
      let m := match_skills_semantic cva.skills all_jd_skills
      let fit := calculate_fit_score cva jd m.2.2 must_have_skills
      some { filename := f.filename
             candidate_name := f.candidate_name
             matched_skills := m.1
             missing_skills := m.2.1
             fit_score := fit.overall_score }

/-- The list `results['candidates']` before the final sort: one result per
CV that is neither skipped nor failed, in upload order. -/
def screen_candidates (jd : JdAnalysis) (must_have_skills : List String)
    (analyze_cv : String → String → Except String CvAnalysis)
    (cv_files : List App.CvFile) : List CandidateResult :=
  cv_files.filterMap (process_candidate jd must_have_skills analyze_cv)

/-- Embeds `CVProcessor.process_screening` restricted to the candidate list
it returns: the per-CV loop followed by
`results['candidates'].sort(key=lambda x: x['fit_score'], reverse=True)`. -/
def process_screening (jd : JdAnalysis) (must_have_skills : List String)
    (analyze_cv : String → String → Except String CvAnalysis)
    (cv_files : List App.CvFile) : List CandidateResult :=
  sort_desc (fun c => c.fit_score)
    (screen_candidates jd must_have_skills analyze_cv cv_files)

end CVP
theorem rhe_eq_floor_or (x : ℚ) : rhe x = ⌊x⌋ ∨ rhe x = ⌊x⌋ + 1 := by
  unfold rhe; split_ifs <;> simp

theorem rhe_nonneg (x : ℚ) (hx : 0 ≤ x) : 0 ≤ rhe x := by
  have h : (0 : ℤ) ≤ ⌊x⌋ := Int.floor_nonneg.mpr hx
  rcases rhe_eq_floor_or x with h1 | h1 <;> omega

theorem rhe_le_of_le_int (x : ℚ) (n : ℤ) (hx : x ≤ (n : ℚ)) : rhe x ≤ n := by
  have hfl : ⌊x⌋ ≤ n := by
    have h := Int.floor_le_floor hx
    rwa [Int.floor_intCast] at h
  rcases lt_or_eq_of_le hfl with h | h
  · rcases rhe_eq_floor_or x with h1 | h1 <;> omega
  · have hxn : (n : ℚ) ≤ x := by
      rw [← h]; exact Int.floor_le x
    have hEq : x = (n : ℚ) := le_antisymm hx hxn
    have : rhe x = n := by
      unfold rhe
      rw [hEq]
      simp [Int.floor_intCast]
    omega

theorem rhe_le_of_lt_int (x : ℚ) (n : ℤ) (hx : x < (n : ℚ)) : rhe x ≤ n :=
  rhe_le_of_le_int x n (le_of_lt hx)

theorem rhe_shift (x : ℚ) (m : ℤ) (hm : m % 2 = 0) : rhe (x + (m : ℚ)) = rhe x + m := by
  unfold rhe
  rw [Int.floor_add_int]
  have h1 : x + (m : ℚ) - ((⌊x⌋ + m : ℤ) : ℚ) = x - ⌊x⌋ := by
    push_cast; ring
  rw [h1]
  have h2 : (⌊x⌋ + m) % 2 = ⌊x⌋ % 2 := by omega
  rw [h2]
  split_ifs <;> ring

/-- If `rhe x ≥ n` then `x ≥ n - 1/2`. -/
theorem half_le_of_rhe_ge (x : ℚ) (n : ℤ) (h : n ≤ rhe x) : (n : ℚ) - 1/2 ≤ x := by
  by_contra hlt
  push_neg at hlt
  have hfl : ⌊x⌋ ≤ n - 1 := by
    have hxn : x < (n : ℚ) := lt_of_lt_of_le hlt (by linarith)
    have hfl2 : ⌊x⌋ ≤ n := by
      have h2 := Int.floor_le_floor (le_of_lt hxn)
      rwa [Int.floor_intCast] at h2
    have hne : ⌊x⌋ ≠ n := by
      intro hEq
      have : ((n : ℤ) : ℚ) ≤ x := hEq ▸ Int.floor_le x
      linarith
    omega
  rcases lt_or_eq_of_le hfl with hcase | hcase
  · rcases rhe_eq_floor_or x with h1 | h1 <;> omega
  · -- ⌊x⌋ = n - 1 and x < n - 1/2, so the fractional part is < 1/2
    have hfr : x - (⌊x⌋ : ℚ) < 1/2 := by
      rw [hcase]; push_cast; linarith
    have : rhe x = ⌊x⌋ := by unfold rhe; rw [if_pos hfr]
    omega

theorem round1_nonneg (x : ℚ) (hx : 0 ≤ x) : 0 ≤ round1 x := by
  unfold round1
  have := rhe_nonneg (10 * x) (by linarith)
  positivity

theorem round1_le_hundred (x : ℚ) (hx : x ≤ 100) : round1 x ≤ 100 := by
  unfold round1
  have h := rhe_le_of_le_int (10 * x) 1000 (by push_cast; linarith)
  have h' : ((rhe (10 * x) : ℤ) : ℚ) ≤ 1000 := by exact_mod_cast h
  rw [div_le_iff (by norm_num)]
  linarith

theorem round1_sub_fifteen (x : ℚ) : round1 (x - 15) = round1 x - 15 := by
  unfold round1
  have h : 10 * (x - 15) = 10 * x + ((-150 : ℤ) : ℚ) := by push_cast; ring
  rw [h, rhe_shift (10 * x) (-150) (by decide)]
  push_cast
  ring

/-- Clamped shift by the fixed must-have penalty: when the clamped, rounded
score is at least 15, listing one more missing must-have skill lowers the
rounded score by exactly 15. -/
theorem round1_clamp_shift (x : ℚ) (h : 15 ≤ round1 (max 0 x)) :
    round1 (max 0 (x - 15)) = round1 (max 0 x) - 15 := by
  have hx0 : 0 < x := by
    by_contra hle
    push_neg at hle
    have hmax : max 0 x = 0 := max_eq_left hle
    rw [hmax] at h
    have : round1 0 = 0 := by unfold round1 rhe; norm_num
    rw [this] at h
    linarith
  have hmaxx : max 0 x = x := max_eq_right (le_of_lt hx0)
  rw [hmaxx] at h ⊢
  by_cases h15 : 15 ≤ x
  · have : max 0 (x - 15) = x - 15 := max_eq_right (by linarith)
    rw [this, round1_sub_fifteen]
  · -- 14.95 ≤ x < 15 here: the rounded score is exactly 15 and drops to 0
    push_neg at h15
    have hup : round1 x ≤ 15 := by
      unfold round1
      have h1 := rhe_le_of_lt_int (10 * x) 150 (by push_cast; linarith)
      have h2 : ((rhe (10 * x) : ℤ) : ℚ) ≤ 150 := by exact_mod_cast h1
      rw [div_le_iff (by norm_num)]
      linarith
    have hEq : round1 x = 15 := le_antisymm hup h
    have hneg : max 0 (x - 15) = 0 := max_eq_left (by linarith)
    rw [hneg, hEq]
    unfold round1 rhe
    norm_num

theorem mem_insert_desc {α : Type} (key : α → ℚ) (x : α) (l : List α) (a : α) :
    a ∈ insert_desc key x l ↔ a = x ∨ a ∈ l := by
  induction l with
  | nil => simp [insert_desc]
  | cons y ys ih =>
    unfold insert_desc
    split_ifs with h
    · simp only [List.mem_cons, ih]
      tauto
    · simp only [List.mem_cons]

theorem pairwise_insert_desc {α : Type} (key : α → ℚ) (x : α) (l : List α)
    (hl : List.Pairwise (fun a b => key b ≤ key a) l) :
    List.Pairwise (fun a b => key b ≤ key a) (insert_desc key x l) := by
  induction l with
  | nil => simp [insert_desc]
  | cons y ys ih =>
    rcases List.pairwise_cons.mp hl with ⟨hy, hys⟩
    unfold insert_desc
    split_ifs with h
    · refine List.pairwise_cons.mpr ⟨?_, ih hys⟩
      intro b hb
      rcases (mem_insert_desc key x ys b).mp hb with rfl | hb
      · exact le_of_lt h
      · exact hy b hb
    · refine List.pairwise_cons.mpr ⟨?_, hl⟩
      intro b hb
      rcases List.mem_cons.mp hb with rfl | hb
      · exact le_of_not_lt h
      · exact le_trans (hy b hb) (le_of_not_lt h)

theorem pairwise_sort_desc {α : Type} (key : α → ℚ) (l : List α) :
    List.Pairwise (fun a b => key b ≤ key a) (sort_desc key l) := by
  induction l with
  | nil => simp [sort_desc]
  | cons x xs ih => exact pairwise_insert_desc key x _ ih

/-- Insertion never reorders the elements of any single key class. -/
theorem filter_insert_desc {α : Type} (key : α → ℚ) (x : α) (l : List α) (q : ℚ) :
    (insert_desc key x l).filter (fun c => decide (key c = q)) =
      (x :: l).filter (fun c => decide (key c = q)) := by
  induction l with
  | nil => rfl
  | cons y ys ih =>
    unfold insert_desc
    split_ifs with h
    · by_cases hx : key x = q
      · have hy : ¬ key y = q := by
          intro hy
          rw [hx] at h
          rw [hy] at h
          exact lt_irrefl q h
        simp only [List.filter, hx, hy, decide_eq_true_eq, decide_eq_false hy, ih]
        simp [List.filter, hy, hx]
      · simp only [List.filter]
        by_cases hy : key y = q
        · simp only [decide_eq_true hy, ih]
          simp [List.filter, hx, hy]
        · simp only [decide_eq_false hy, ih]
          simp [List.filter, hx, hy]
    · rfl

/-- Stability: sorting never reorders candidates of equal key. -/
theorem filter_sort_desc {α : Type} (key : α → ℚ) (l : List α) (q : ℚ) :
    (sort_desc key l).filter (fun c => decide (key c = q)) =
      l.filter (fun c => decide (key c = q)) := by
  induction l with
  | nil => rfl
  | cons x xs ih =>
    show ((insert_desc key x (sort_desc key xs)).filter _) = _
    rw [filter_insert_desc]
    simp only [List.filter]
    by_cases hx : key x = q
    · simp [hx, ih]
    · simp [hx, ih]

namespace App

theorem match_loop_length (cv_skills jd_skills : List String) :
    (match_loop cv_skills jd_skills).1.length
      + (match_loop cv_skills jd_skills).2.length = jd_skills.length := by
  induction jd_skills with
  | nil => rfl
  | cons j rest ih =>
    unfold match_loop
    cases h : matched_entry cv_skills j <;> simp [h] <;> omega

theorem match_loop_matched_mem (cv_skills jd_skills : List String) :
    ∀ e ∈ (match_loop cv_skills jd_skills).1,
      ∃ j c, j ∈ jd_skills ∧ c ∈ cv_skills ∧ e = j ++ " → " ++ c := by
  induction jd_skills with
  | nil => intro e he; simp [match_loop] at he
  | cons j rest ih =>
    intro e he
    unfold match_loop at he
    rcases hme : matched_entry cv_skills j with _ | me
    · rw [hme] at he
      simp only [] at he
      rcases ih e he with ⟨j', c', hj', hc', hEq⟩
      exact ⟨j', c', List.mem_cons_of_mem _ hj', hc', hEq⟩
    · rw [hme] at he
      simp only [List.mem_cons] at he
      rcases he with rfl | he
      · rcases hb : best_skill_match cv_skills j with _ | c
        · simp [matched_entry, hb] at hme
        · by_cases hc : c = ""
          · simp [matched_entry, hb, hc] at hme
          · simp only [matched_entry, hb, if_neg hc] at hme
            have hmem : c ∈ cv_skills := List.mem_of_find?_eq_some hb
            refine ⟨j, c, List.mem_cons_self j rest, hmem, ?_⟩
            simpa using hme.symm
      · rcases ih e he with ⟨j', c', hj', hc', hEq⟩
        exact ⟨j', c', List.mem_cons_of_mem _ hj', hc', hEq⟩

theorem skills_match_score_mem (m t : ℕ) :
    0 ≤ skills_match_score m t ∧ skills_match_score m t ≤ 100 := by
  unfold skills_match_score
  split_ifs with h
  · constructor
    · have : (0 : ℚ) ≤ ((m : ℚ) / (t : ℚ)) * 120 := by positivity
      exact le_min this (by norm_num)
    · exact min_le_right _ _
  · norm_num

theorem experience_level_score_mem (c j : ℕ) :
    0 ≤ experience_level_score c j ∧ experience_level_score c j ≤ 100 := by
  unfold experience_level_score
  split_ifs with h
  · refine ⟨?_, min_le_right _ _⟩
    have h1 : (0 : ℚ) ≤ min ((c : ℚ) / ((max j 1 : ℕ) : ℚ)) 2 :=
      le_min (by positivity) (by norm_num)
    exact le_min (by linarith) (by norm_num)
  · push_neg at h
    have hj1 : max j 1 = j := max_eq_left (by omega)
    have hjpos : (0 : ℚ) < ((max j 1 : ℕ) : ℚ) := by
      rw [hj1]
      exact_mod_cast Nat.pos_of_ne_zero (by omega)
    have hratio : (c : ℚ) / ((max j 1 : ℕ) : ℚ) ≤ 1 := by
      rw [div_le_one hjpos, hj1]
      exact_mod_cast le_of_lt h
    constructor
    · have h20 : (20 : ℚ) ≤ max 20 (((c : ℚ) / ((max j 1 : ℕ) : ℚ)) * 60) := le_max_left _ _
      linarith
    · apply max_le (by norm_num)
      nlinarith [hratio]

theorem seniority_match_score_mem (c j : String) :
    0 ≤ seniority_match_score c j ∧ seniority_match_score c j ≤ 100 := by
  unfold seniority_match_score
  split_ifs <;> norm_num

theorem education_relevance_score_mem (e : List String) :
    0 ≤ education_relevance_score e ∧ education_relevance_score e ≤ 100 := by
  unfold education_relevance_score
  split_ifs <;> norm_num

theorem career_progression_score_mem (p : String) :
    0 ≤ career_progression_score p ∧ career_progression_score p ≤ 100 := by
  unfold career_progression_score
  split_ifs <;> norm_num

theorem achievements_score_mem (n : ℕ) :
    0 ≤ achievements_score n ∧ achievements_score n ≤ 100 := by
  unfold achievements_score
  refine ⟨le_min (by positivity) (by norm_num), min_le_right _ _⟩

theorem must_have_penalty_nonneg (cv mh : List String) :
    0 ≤ must_have_penalty_amount cv mh := by
  unfold must_have_penalty_amount
  split_ifs
  · norm_num
  · positivity

theorem red_flags_penalty_mem (n : ℕ) :
    0 ≤ red_flags_penalty_amount n ∧ red_flags_penalty_amount n ≤ 25 := by
  unfold red_flags_penalty_amount
  refine ⟨le_min (by positivity) (by norm_num), min_le_right _ _⟩


end App

theorem le_foldl_max (l : List ℕ) (a : ℕ) : a ≤ l.foldl max a := by
  induction l generalizing a with
  | nil => simp
  | cons x xs ih => exact le_trans (le_max_left a x) (ih (max a x))

theorem mem_le_foldl_max (l : List ℕ) (a y : ℕ) : y ∈ l → y ≤ l.foldl max a := by
  induction l generalizing a with
  | nil => intro hy; cases hy
  | cons x xs ih =>
    intro hy
    rcases List.mem_cons.mp hy with rfl | hy'
    · exact le_trans (le_max_right a y) (le_foldl_max xs (max a y))
    · exact ih (max a x) hy'

theorem foldl_max_mem_or (l : List ℕ) (a : ℕ) :
    l.foldl max a ∈ l ∨ l.foldl max a = a := by
  induction l generalizing a with
  | nil => right; rfl
  | cons x xs ih =>
    rcases ih (max a x) with h | h
    · left; exact List.mem_cons_of_mem _ h
    · show xs.foldl max (max a x) ∈ x :: xs ∨ xs.foldl max (max a x) = a
      rcases max_cases a x with ⟨hEq, _⟩ | ⟨hEq, _⟩
      · right; rw [h, hEq]
      · left; rw [h, hEq]; exact List.mem_cons_self x xs

theorem foldl_max_zero_mem (l : List ℕ) (hl : l ≠ []) : l.foldl max 0 ∈ l := by
  rcases foldl_max_mem_or l 0 with h | h
  · exact h
  · cases l with
    | nil => exact absurd rfl hl
    | cons x xs =>
      have hx := mem_le_foldl_max (x :: xs) 0 x (List.mem_cons_self x xs)
      rw [h] at hx
      have hx0 : x = 0 := Nat.le_zero.mp hx
      rw [h, ← hx0]
      exact List.mem_cons_self x xs

/-- C3 counterexample: the text `45 years of experience` matches the first
explicit pattern with the integer 45, and the estimator returns it as is —
above every ceiling in the claimed 20 to 30 band. -/
theorem extract_experience_years_uncapped_cex :
    App.extract_experience_years [45] [] 2024 = 45 ∧ 30 < 45 := by
  constructor
  · rfl
  · decide

/-- C3 (amended): the estimator returns the maximum of the explicitly
matched integers, uncapped, whenever any explicit pattern matched; only
the date-range fallback is capped at 30, and with no explicit match and no
ranges the result is 0. -/
theorem extract_experience_years_amended (explicit_years : List ℕ)
    (date_ranges : List (ℕ × Option ℕ)) (current_year : ℕ) (y : ℕ) :
    (y ∈ explicit_years →
      y ≤ App.extract_experience_years explicit_years date_ranges current_year ∧
      App.extract_experience_years explicit_years date_ranges current_year ∈
        explicit_years) ∧
    (explicit_years = [] →
      App.extract_experience_years explicit_years date_ranges current_year ≤ 30) ∧
    (explicit_years = [] → date_ranges = [] →
      App.extract_experience_years explicit_years date_ranges current_year = 0) := by
  refine ⟨?_, ?_, ?_⟩
  · intro hy
    have hne : explicit_years ≠ [] := by
      intro hEq; rw [hEq] at hy; cases hy
    unfold App.extract_experience_years
    rw [if_pos hne]
    exact ⟨mem_le_foldl_max _ 0 y hy, foldl_max_zero_mem _ hne⟩
  · intro hEq
    unfold App.extract_experience_years
    rw [if_neg (by simp [hEq])]
    split_ifs
    · exact min_le_right _ _
    · exact Nat.zero_le 30
  · intro hEq hd
    unfold App.extract_experience_years
    rw [if_neg (by simp [hEq]), if_neg (by simp [hd])]

/-- C8 counterexample: with no indicator terms and exactly seven years of
experience the classifier already answers senior, while the claimed rule
(senior only from eight years) would answer mid. -/
theorem determine_seniority_seven_years_cex :
    App.determine_seniority 0 0 7 = "senior" ∧ ¬ (8 ≤ 7 ∨ 2 ≤ 0) := by
  constructor
  · rfl
  · decide

/-- C8 (amended): the seniority classifier answers senior when
experience_years is at least 7 (not 8) or at least two senior-indicator
terms occur; otherwise junior when experience_years is at most 2 or at
least two junior-indicator terms occur; otherwise mid. -/
theorem determine_seniority_rule (sc jc ey : ℕ) :
    (App.determine_seniority sc jc ey = "senior" ↔ 2 ≤ sc ∨ 7 ≤ ey) ∧
    (App.determine_seniority sc jc ey = "junior" ↔
      (sc < 2 ∧ ey < 7) ∧ (2 ≤ jc ∨ ey ≤ 2)) ∧
    (App.determine_seniority sc jc ey = "mid" ↔
      sc < 2 ∧ ey < 7 ∧ jc < 2 ∧ 3 ≤ ey) := by
  unfold App.determine_seniority
  split_ifs with h1 h2
  · refine ⟨⟨fun _ => h1, fun _ => rfl⟩,
      ⟨fun h => absurd h (by decide), fun h => ?_⟩,
      ⟨fun h => absurd h (by decide), fun h => ?_⟩⟩
    · exfalso
      rcases h with ⟨⟨ha, hb⟩, _⟩
      rcases h1 with h1 | h1 <;> omega
    · exfalso
      rcases h with ⟨ha, hb, _, _⟩
      rcases h1 with h1 | h1 <;> omega
  · push_neg at h1
    refine ⟨⟨fun h => absurd h (by decide), fun h => ?_⟩,
      ⟨fun _ => ⟨h1, h2⟩, fun _ => rfl⟩,
      ⟨fun h => absurd h (by decide), fun h => ?_⟩⟩
    · exfalso
      rcases h with h | h <;> omega
    · exfalso
      rcases h with ⟨_, _, hc, hd⟩
      rcases h2 with h2 | h2 <;> omega
  · push_neg at h1 h2
    refine ⟨⟨fun h => absurd h (by decide), fun h => ?_⟩,
      ⟨fun h => absurd h (by decide), fun h => ?_⟩,
      ⟨fun _ => ?_, fun _ => rfl⟩⟩
    · exfalso
      rcases h with h | h <;> omega
    · exfalso
      rcases h with ⟨_, hb⟩
      rcases hb with hb | hb <;> omega
    · omega

/-- C6: for every final score the verdict category is determined by exactly
the cut points 85, 75, 65 and 50, both in `RealCVProcessor._get_fit_level`
(src/app.py) and in `CVProcessor._get_recommendation`
(src/cv_processor.py). -/
theorem verdict_thresholds_exact (s : ℚ) :
    (App.get_fit_level s = "Excellent Fit" ↔ 85 ≤ s) ∧
    (App.get_fit_level s = "Good Fit" ↔ 75 ≤ s ∧ s < 85) ∧
    (App.get_fit_level s = "Moderate Fit" ↔ 65 ≤ s ∧ s < 75) ∧
    (App.get_fit_level s = "Below Average" ↔ 50 ≤ s ∧ s < 65) ∧
    (App.get_fit_level s = "Poor Fit" ↔ s < 50) ∧
    (CVP.get_recommendation s = CVP.get_recommendation 85 ↔ 85 ≤ s) ∧
    (CVP.get_recommendation s = CVP.get_recommendation 75 ↔ 75 ≤ s ∧ s < 85) ∧
    (CVP.get_recommendation s = CVP.get_recommendation 65 ↔ 65 ≤ s ∧ s < 75) ∧
    (CVP.get_recommendation s = CVP.get_recommendation 50 ↔ 50 ≤ s ∧ s < 65) ∧
    (CVP.get_recommendation s = CVP.get_recommendation 0 ↔ s < 50) := by
  have hA : CVP.get_recommendation 85 =
      "Excellent fit! Strong candidate with relevant experience and skills. Recommend for interview." := by
    unfold CVP.get_recommendation; norm_num
  have hB : CVP.get_recommendation 75 =
      "Good fit with minor gaps. Solid candidate worth considering for next round." := by
    unfold CVP.get_recommendation; norm_num
  have hC : CVP.get_recommendation 65 =
      "Moderate fit. Has potential but may need training in some areas. Consider if other candidates are limited." := by
    unfold CVP.get_recommendation; norm_num
  have hD : CVP.get_recommendation 50 =
      "Below average fit. Significant skill or experience gaps. Only consider if willing to invest in training." := by
    unfold CVP.get_recommendation; norm_num
  have hE : CVP.get_recommendation 0 =
      "Poor fit for this role. Major gaps in requirements. Not recommended for this position." := by
    unfold CVP.get_recommendation; norm_num
  rw [hA, hB, hC, hD, hE]
  unfold App.get_fit_level CVP.get_recommendation
  split_ifs with h1 h2 h3 h4 <;>
    refine ⟨?_, ?_, ?_, ?_, ?_, ?_, ?_, ?_, ?_, ?_⟩ <;>
    constructor <;>
    intro h <;>
    first
      | rfl
      | (exact absurd h (by decide))
      | linarith
      | (constructor <;> linarith)

theorem match_loop_missing_subset (cv_skills jd_skills : List String) :
    ∀ j ∈ (App.match_loop cv_skills jd_skills).2, j ∈ jd_skills := by
  induction jd_skills with
  | nil => intro j hj; simp [App.match_loop] at hj
  | cons x rest ih =>
    intro j hj
    unfold App.match_loop at hj
    cases hme : App.matched_entry cv_skills x <;> rw [hme] at hj <;>
      simp only [List.mem_cons] at hj ⊢
    · rcases hj with rfl | hj
      · exact Or.inl rfl
      · exact Or.inr (ih j hj)
    · exact Or.inr (ih j hj)

/-- C2: the skill match percentage equals matched count over total job
skills times 100 (0 with no job skills), always lies in the closed interval
from 0 to 100, and is 0 whenever either skill list is empty. -/
theorem match_percentage_formula_and_range (cv_skills jd_skills : List String) :
    ((App.match_skills_semantic cv_skills jd_skills).2.2 =
      if jd_skills = [] then 0
      else (((App.match_skills_semantic cv_skills jd_skills).1.length : ℚ) /
        (jd_skills.length : ℚ)) * 100) ∧
    0 ≤ (App.match_skills_semantic cv_skills jd_skills).2.2 ∧
    (App.match_skills_semantic cv_skills jd_skills).2.2 ≤ 100 ∧
    ((cv_skills = [] ∨ jd_skills = []) →
      (App.match_skills_semantic cv_skills jd_skills).2.2 = 0) := by
  by_cases hc : cv_skills = [] ∨ jd_skills = []
  · have hres : App.match_skills_semantic cv_skills jd_skills = ([], jd_skills, 0) := by
      unfold App.match_skills_semantic; rw [if_pos hc]
    rw [hres]
    refine ⟨?_, le_refl 0, by norm_num, fun _ => rfl⟩
    by_cases hj : jd_skills = []
    · rw [if_pos hj]
    · rw [if_neg hj]
      simp
  · have hres : App.match_skills_semantic cv_skills jd_skills =
        ((App.match_loop cv_skills jd_skills).1, (App.match_loop cv_skills jd_skills).2,
          (((App.match_loop cv_skills jd_skills).1.length : ℚ) /
            (jd_skills.length : ℚ)) * 100) := by
      unfold App.match_skills_semantic; rw [if_neg hc]
    push_neg at hc
    obtain ⟨hcv, hjd⟩ := hc
    rw [hres]
    have hlen := App.match_loop_length cv_skills jd_skills
    have hml : (App.match_loop cv_skills jd_skills).1.length ≤ jd_skills.length := by
      omega
    have hpos : (0 : ℚ) < (jd_skills.length : ℚ) := by
      have h0 : 0 < jd_skills.length := List.length_pos.mpr hjd
      exact_mod_cast h0
    refine ⟨by rw [if_neg hjd], by positivity, ?_, fun habs => ?_⟩
    · have hr : ((App.match_loop cv_skills jd_skills).1.length : ℚ) /
          (jd_skills.length : ℚ) ≤ 1 := by
        rw [div_le_one hpos]
        exact_mod_cast hml
      nlinarith [hr]
    · rcases habs with habs | habs
      · exact absurd habs hcv
      · exact absurd habs hjd

/-- C10: the matcher partitions the job skills — matched and missing counts
sum to the job-skill count, every matched entry is a job skill joined by an
arrow to a candidate skill, every missing entry is a job skill, and with an
empty candidate list nothing matches and every job skill is missing. -/
theorem match_skills_partition (cv_skills jd_skills : List String) :
    ((App.match_skills_semantic cv_skills jd_skills).1.length +
      (App.match_skills_semantic cv_skills jd_skills).2.1.length = jd_skills.length) ∧
    ((App.match_skills_semantic [] jd_skills).1 = [] ∧
      (App.match_skills_semantic [] jd_skills).2.1 = jd_skills) ∧
    (∀ e ∈ (App.match_skills_semantic cv_skills jd_skills).1,
      ∃ j c, j ∈ jd_skills ∧ c ∈ cv_skills ∧ e = j ++ " → " ++ c) ∧
    (∀ j ∈ (App.match_skills_semantic cv_skills jd_skills).2.1, j ∈ jd_skills) := by
  have hempty : App.match_skills_semantic [] jd_skills = ([], jd_skills, 0) := by
    unfold App.match_skills_semantic
    rw [if_pos (Or.inl rfl)]
  by_cases hc : cv_skills = [] ∨ jd_skills = []
  · have hres : App.match_skills_semantic cv_skills jd_skills = ([], jd_skills, 0) := by
      unfold App.match_skills_semantic; rw [if_pos hc]
    rw [hres, hempty]
    refine ⟨by simp, ⟨rfl, rfl⟩, ?_, fun j hj => hj⟩
    intro e he
    simp at he
  · have hres : App.match_skills_semantic cv_skills jd_skills =
        ((App.match_loop cv_skills jd_skills).1, (App.match_loop cv_skills jd_skills).2,
          (((App.match_loop cv_skills jd_skills).1.length : ℚ) /
            (jd_skills.length : ℚ)) * 100) := by
      unfold App.match_skills_semantic; rw [if_neg hc]
    rw [hres, hempty]
    exact ⟨App.match_loop_length cv_skills jd_skills, ⟨rfl, rfl⟩,
      App.match_loop_matched_mem cv_skills jd_skills,
      match_loop_missing_subset cv_skills jd_skills⟩

theorem must_have_penalty_append_missing (cv_skills M : List String) (m : String)
    (h : ∀ s ∈ cv_skills, pyIn (pyLower m) (pyLower s) = false) :
    App.must_have_penalty_amount cv_skills (M ++ [m]) =
      App.must_have_penalty_amount cv_skills M + 15 := by
  have hany : ((cv_skills.map pyLower).any (fun s => pyIn (pyLower m) s)) = false := by
    rw [List.any_eq_false]
    intro s hs
    rcases List.mem_map.mp hs with ⟨t, ht, rfl⟩
    simp [h t ht]
  unfold App.must_have_penalty_amount
  rw [if_neg (by simp : ¬ M ++ [m] = [])]
  by_cases hM : M = []
  · subst hM
    rw [if_pos rfl]
    simp [List.filter, hany]
  · rw [if_neg hM]
    rw [List.filter_append]
    simp only [List.filter, hany, Bool.not_false, List.length_append,
      List.length_singleton]
    push_cast
    ring

/-- C1: for every candidate analysis, job-description analysis, matched and
missing skill lists and must-have list, the overall fit score equals the
weighted sum of the component scores minus the must-have and red-flag
penalties, clamped to the interval from 0 to 100 (then rounded to one
decimal), and always lies in that interval. -/
theorem fit_score_overall_clamped (cv : App.CvAnalysis) (jd : App.JdAnalysis)
    (ms mis mh : List String) :
    ((App.calculate_comprehensive_fit_score cv jd ms mis mh).overall_score =
      round1 (min 100 (max 0
        ((0.30 : ℚ) * App.skills_match_score ms.length
            (jd.required_skills.length + jd.preferred_skills.length)
          + (0.25 : ℚ) * App.experience_level_score cv.experience_years
              jd.min_experience_years
          + (0.15 : ℚ) * App.seniority_match_score cv.seniority_level
              jd.seniority_level
          + (0.10 : ℚ) * App.education_relevance_score cv.education
          + (0.10 : ℚ) * App.career_progression_score cv.career_progression
          + (0.10 : ℚ) * App.achievements_score cv.notable_achievements.length
          - App.must_have_penalty_amount cv.skills mh
          - App.red_flags_penalty_amount cv.red_flags.length)))) ∧
    0 ≤ (App.calculate_comprehensive_fit_score cv jd ms mis mh).overall_score ∧
    (App.calculate_comprehensive_fit_score cv jd ms mis mh).overall_score ≤ 100 := by
  have hsk := App.skills_match_score_mem ms.length
    (jd.required_skills.length + jd.preferred_skills.length)
  have hex := App.experience_level_score_mem cv.experience_years jd.min_experience_years
  have hsen := App.seniority_match_score_mem cv.seniority_level jd.seniority_level
  have hedu := App.education_relevance_score_mem cv.education
  have hpro := App.career_progression_score_mem cv.career_progression
  have hach := App.achievements_score_mem cv.notable_achievements.length
  have hmh := App.must_have_penalty_nonneg cv.skills mh
  have hrf := App.red_flags_penalty_mem cv.red_flags.length
  have hle : max 0
      ((0.30 : ℚ) * App.skills_match_score ms.length
          (jd.required_skills.length + jd.preferred_skills.length)
        + (0.25 : ℚ) * App.experience_level_score cv.experience_years
            jd.min_experience_years
        + (0.15 : ℚ) * App.seniority_match_score cv.seniority_level
            jd.seniority_level
        + (0.10 : ℚ) * App.education_relevance_score cv.education
        + (0.10 : ℚ) * App.career_progression_score cv.career_progression
        + (0.10 : ℚ) * App.achievements_score cv.notable_achievements.length
        - App.must_have_penalty_amount cv.skills mh
        - App.red_flags_penalty_amount cv.red_flags.length) ≤ 100 := by
    apply max_le (by norm_num)
    linarith [hsk.2, hex.2, hsen.2, hedu.2, hpro.2, hach.2, hmh, hrf.1]
  refine ⟨?_, ?_, ?_⟩
  · simp only [App.calculate_comprehensive_fit_score]
    rw [min_eq_right hle]
  · simp only [App.calculate_comprehensive_fit_score]
    exact round1_nonneg _ (le_max_left 0 _)
  · simp only [App.calculate_comprehensive_fit_score]
    exact round1_le_hundred _ hle

/-- C4: when one designated must-have skill occurs (case-insensitively, as a
substring) in none of the candidate's skills and the candidate otherwise
scores at least 15, the fit score computed with that skill listed is exactly
the fixed 15-point per-skill penalty below the score computed without it. -/
theorem must_have_skill_penalty_exact (cv : App.CvAnalysis) (jd : App.JdAnalysis)
    (ms mis mh : List String) (m : String)
    (h_absent : ∀ s ∈ cv.skills, pyIn (pyLower m) (pyLower s) = false)
    (h_room : 15 ≤ (App.calculate_comprehensive_fit_score cv jd ms mis mh).overall_score) :
    (App.calculate_comprehensive_fit_score cv jd ms mis (mh ++ [m])).overall_score =
      (App.calculate_comprehensive_fit_score cv jd ms mis mh).overall_score - 15 := by
  simp only [App.calculate_comprehensive_fit_score] at h_room ⊢
  rw [must_have_penalty_append_missing cv.skills mh m h_absent]
  have harr :
      (0.30 : ℚ) * App.skills_match_score ms.length
          (jd.required_skills.length + jd.preferred_skills.length)
        + (0.25 : ℚ) * App.experience_level_score cv.experience_years
            jd.min_experience_years
        + (0.15 : ℚ) * App.seniority_match_score cv.seniority_level jd.seniority_level
        + (0.10 : ℚ) * App.education_relevance_score cv.education
        + (0.10 : ℚ) * App.career_progression_score cv.career_progression
        + (0.10 : ℚ) * App.achievements_score cv.notable_achievements.length
        - (App.must_have_penalty_amount cv.skills mh + 15)
        - App.red_flags_penalty_amount cv.red_flags.length
      = ((0.30 : ℚ) * App.skills_match_score ms.length
          (jd.required_skills.length + jd.preferred_skills.length)
        + (0.25 : ℚ) * App.experience_level_score cv.experience_years
            jd.min_experience_years
        + (0.15 : ℚ) * App.seniority_match_score cv.seniority_level jd.seniority_level
        + (0.10 : ℚ) * App.education_relevance_score cv.education
        + (0.10 : ℚ) * App.career_progression_score cv.career_progression
        + (0.10 : ℚ) * App.achievements_score cv.notable_achievements.length
        - App.must_have_penalty_amount cv.skills mh
        - App.red_flags_penalty_amount cv.red_flags.length) - 15 := by ring
  rw [harr]
  exact round1_clamp_shift _ h_room

/-- C4 witness: the concrete candidate misses the must-have skill
kubernetes; listing it lowers the rounded overall score by exactly 15. -/
theorem must_have_skill_penalty_exact_witness :
    (App.calculate_comprehensive_fit_score App.cv_example App.jd_example
        ["python → python"] [] (["kubernetes"])).overall_score =
      (App.calculate_comprehensive_fit_score App.cv_example App.jd_example
        ["python → python"] [] []).overall_score - 15 :=
  must_have_skill_penalty_exact App.cv_example App.jd_example
    ["python → python"] [] [] "kubernetes" (by decide)
    (by
      have h98 : (App.calculate_comprehensive_fit_score App.cv_example App.jd_example
          ["python → python"] [] []).overall_score = 98 := by
        simp only [App.calculate_comprehensive_fit_score, App.skills_match_score,
          App.experience_level_score, App.seniority_match_score,
          App.education_relevance_score, App.career_progression_score,
          App.achievements_score, App.must_have_penalty_amount,
          App.red_flags_penalty_amount, App.cv_example, App.jd_example]
        norm_num [round1, rhe]
      rw [h98]
      norm_num)

/-- C5 failing input for src/cv_processor.py: the weighted sum adds the
red-flag term with weight -0.05 times -1, so the identical candidate scores
87.2 with five red flags and 84.8 with none — the capped penalty is added
to the score instead of subtracted. -/
theorem red_flag_penalty_added_bug :
    (CVP.calculate_fit_score CVP.cv_flags_example CVP.jd_example 100 []).overall_score
        = 87.2 ∧
    (CVP.calculate_fit_score CVP.cv_noflags_example CVP.jd_example 100 []).overall_score
        = 84.8 ∧
    (CVP.calculate_fit_score CVP.cv_noflags_example CVP.jd_example 100 []).overall_score
      < (CVP.calculate_fit_score CVP.cv_flags_example CVP.jd_example 100 []).overall_score := by
  have h1 : (CVP.calculate_fit_score CVP.cv_flags_example CVP.jd_example
      100 []).overall_score = 87.2 := by
    simp only [CVP.calculate_fit_score, CVP.cv_flags_example, CVP.jd_example]
    norm_num [round1, rhe]
  have h2 : (CVP.calculate_fit_score CVP.cv_noflags_example CVP.jd_example
      100 []).overall_score = 84.8 := by
    simp only [CVP.calculate_fit_score, CVP.cv_noflags_example, CVP.cv_flags_example,
      CVP.jd_example]
    norm_num [round1, rhe]
  refine ⟨h1, h2, ?_⟩
  rw [h1, h2]
  norm_num

/-- C7: the candidate list a screening run returns is sorted by overall fit
score in descending order, and the sort is stable: within every class of
equal fit scores the original upload order is kept. -/
theorem screening_sorted_and_stable (jd : App.JdAnalysis) (mh : List String)
    (analyze_cv : String → String → Except String App.CvAnalysis)
    (cv_files : List App.CvFile) :
    List.Pairwise (fun a b => b.fit_score ≤ a.fit_score)
      (App.process_screening jd mh analyze_cv cv_files) ∧
    ∀ q : ℚ,
      (App.process_screening jd mh analyze_cv cv_files).filter
          (fun c => decide (c.fit_score = q)) =
        (App.screen_candidates jd mh analyze_cv cv_files).filter
          (fun c => decide (c.fit_score = q)) :=
  ⟨pairwise_sort_desc _ _, fun q => filter_sort_desc _ _ q⟩

/-- The app.py screening loop: a CV with empty or sub-50-character
extracted text, or whose analysis raises, is skipped — it yields no
candidate result — and the screening of the remaining CVs is exactly what
it would have been with the bad file absent. -/
theorem candidate_skip_or_failure_isolated (jd : App.JdAnalysis) (mh : List String)
    (analyze_cv : String → String → Except String App.CvAnalysis)
    (pre post : List App.CvFile) (bad : App.CvFile)
    (h : bad.text = "" ∨ (pyStrip bad.text).length < 50 ∨
      ∃ e, analyze_cv bad.text bad.candidate_name = Except.error e) :
    App.process_candidate jd mh analyze_cv bad = none ∧
    App.process_screening jd mh analyze_cv (pre ++ bad :: post) =
      App.process_screening jd mh analyze_cv (pre ++ post) := by
  have hnone : App.process_candidate jd mh analyze_cv bad = none := by
    unfold App.process_candidate
    rcases h with h | h | ⟨e, he⟩
    · rw [if_pos (Or.inl h)]
    · rw [if_pos (Or.inr h)]
    · split_ifs with hif
      · rfl
      · rw [he]
  refine ⟨hnone, ?_⟩
  unfold App.process_screening App.screen_candidates
  rw [List.filterMap_append, List.filterMap_append, List.filterMap_cons_none hnone]

/-- Concrete instance of the app.py skipping rule: a nine-character CV text
is skipped, and screening the one-element batch equals screening the empty
batch. -/
theorem candidate_skip_witness :
    App.process_candidate App.jd_example []
        (fun _ _ => Except.error "analysis failure")
        (App.CvFile.mk "cv1.pdf" "too short" "Alice") = none ∧
    App.process_screening App.jd_example []
        (fun _ _ => Except.error "analysis failure")
        ([] ++ App.CvFile.mk "cv1.pdf" "too short" "Alice" :: []) =
      App.process_screening App.jd_example []
        (fun _ _ => Except.error "analysis failure") ([] ++ []) :=
  candidate_skip_or_failure_isolated App.jd_example []
    (fun _ _ => Except.error "analysis failure") [] []
    (App.CvFile.mk "cv1.pdf" "too short" "Alice")
    (Or.inr (Or.inl (by decide)))

/-- C9 counterexample: in the cv_processor.py screening loop a CV whose
extracted text is the non-empty eight-character string "short cv" — far
below the claimed 50-character threshold — is not skipped: its analysis
runs, a candidate result is recorded, and the one-file batch returns one
result, falsifying the claim for that cited loop. -/
theorem cvp_short_text_recorded_cex :
    (CVP.process_candidate CVP.jd_example []
        (fun _ _ => Except.ok CVP.cv_noflags_example)
        (App.CvFile.mk "cv1.pdf" "short cv" "Alice")).isSome = true ∧
    (CVP.process_screening CVP.jd_example []
        (fun _ _ => Except.ok CVP.cv_noflags_example)
        [App.CvFile.mk "cv1.pdf" "short cv" "Alice"]).length = 1 ∧
    ¬ ("short cv" = "") ∧ (pyStrip "short cv").length < 50 := by
  refine ⟨?_, ?_, by decide, by decide⟩
  · simp [CVP.process_candidate]
  · simp [CVP.process_screening, CVP.screen_candidates, CVP.process_candidate,
      sort_desc, insert_desc, List.filterMap]

/-- C9 (amended): the skip rule differs per variant. In the app.py loop a
CV with empty or sub-50-character (stripped) text, or whose analysis
raises, is skipped with no result recorded, and the batch result equals the
batch without it. In the cv_processor.py loop the same skipping and
isolation hold for empty text or a failing analysis, but the loop has no
minimum-length guard: any non-empty text whose analysis succeeds produces a
recorded result. In both loops one candidate's skip or failure never aborts
or alters the other candidates' results. -/
theorem screening_skip_rule_per_variant
    (jdA : App.JdAnalysis) (jdC : CVP.JdAnalysis) (mh : List String)
    (analyzeA : String → String → Except String App.CvAnalysis)
    (analyzeC : String → String → Except String CVP.CvAnalysis)
    (pre post : List App.CvFile) (bad f : App.CvFile) :
    ((bad.text = "" ∨ (pyStrip bad.text).length < 50 ∨
        (∃ e, analyzeA bad.text bad.candidate_name = Except.error e)) →
      App.process_candidate jdA mh analyzeA bad = none ∧
      App.process_screening jdA mh analyzeA (pre ++ bad :: post) =
        App.process_screening jdA mh analyzeA (pre ++ post)) ∧
    ((bad.text = "" ∨ (∃ e, analyzeC bad.text bad.candidate_name = Except.error e)) →
      CVP.process_candidate jdC mh analyzeC bad = none ∧
      CVP.process_screening jdC mh analyzeC (pre ++ bad :: post) =
        CVP.process_screening jdC mh analyzeC (pre ++ post)) ∧
    ((¬ f.text = "" ∧ (∃ cva, analyzeC f.text f.candidate_name = Except.ok cva)) →
      (CVP.process_candidate jdC mh analyzeC f).isSome = true) := by
  refine ⟨?_, ?_, ?_⟩
  · intro h
    exact candidate_skip_or_failure_isolated jdA mh analyzeA pre post bad h
  · intro h
    have hnone : CVP.process_candidate jdC mh analyzeC bad = none := by
      unfold CVP.process_candidate
      rcases h with h | ⟨e, he⟩
      · rw [if_pos h]
      · split_ifs with hif
        · rfl
        · rw [he]
    refine ⟨hnone, ?_⟩
    unfold CVP.process_screening CVP.screen_candidates
    rw [List.filterMap_append, List.filterMap_append, List.filterMap_cons_none hnone]
  · rintro ⟨hne, cva, hok⟩
    unfold CVP.process_candidate
    rw [if_neg hne, hok]
    rfl
